import Mathlib

set_option maxHeartbeats 1000000
set_option maxRecDepth 16000

/-!
Shallow embedding of the document ingestion and retrieval core of this
repository (file `src/tools/vector_database.py`, class `VectorDatabaseManager`
and the two tool wrappers `VectorIndexerTool` / `VectorSearchTool`).

Modelling conventions used throughout:
- Python strings are Lean `String`s; `len` is `String.length` (both count
  unicode code points).
- Python integers are `Nat`/`Int`; `//` is Lean `/` on `Nat`.
- Python `float` arithmetic inside `_calculate_adaptive_batch_size` is
  modelled with exact rational arithmetic (`ℚ`).  At every concrete input
  appearing in a theorem below the Python double computation is exact, so
  the two agree; `int(x)` for nonnegative `x` is `⌊x⌋`.
- Python dicts that the code only iterates over or updates key-wise are
  modelled as insertion-ordered association lists.
- The external collaborators (embedding service / Chroma vector store) are
  modelled as an oracle `Service` giving, per submitted batch and per attempt
  number, one of the outcomes the code distinguishes (success, metadata
  serialization error, token-ceiling overflow, other transient error).
-/

/-- A Python runtime value as it can occur in a chunk metadata map.  The
primitive constructors are exactly the types kept by the sanitizer
(`isinstance(value, (str, int, float, bool, type(None)))`, line 360); `list`
and `dict` are the containers named on line 362; `other` models any other
object together with its `str()` rendering. -/
inductive PyVal where
  | str (s : String)
  | int (n : Int)
  | float (q : ℚ)
  | bool (b : Bool)
  | none
  | list (vs : List PyVal)
  | dict (kvs : List (String × PyVal))
  | other (rendering : String)

mutual

/-- Python `repr()` of a metadata value (string escaping inside `repr` of a
string is not modelled; no theorem below depends on the exact rendering). -/
def pyReprV : PyVal → String
  | .str s => "\x27" ++ s ++ "\x27"
  | .int n => toString n
  | .float q => toString q
  | .bool b => if b then ("True") else ("False")
  | .none => ("None")
  | .list vs => "[" ++ pyReprList vs ++ "]"
  | .dict kvs => "\x7b" ++ pyReprDict kvs ++ "\x7d"
  | .other r => r

/-- Comma-separated `repr`s of the elements of a Python list. -/
def pyReprList : List PyVal → String
  | [] => ""
  | [v] => pyReprV v
  | v :: w :: rest => pyReprV v ++ ", " ++ pyReprList (w :: rest)

/-- Comma-separated `key: value` renderings of the entries of a Python dict. -/
def pyReprDict : List (String × PyVal) → String
  | [] => ""
  | [(k, v)] => "\x27" ++ k ++ "\x27: " ++ pyReprV v
  | (k, v) :: e :: rest => "\x27" ++ k ++ "\x27: " ++ pyReprV v ++ ", " ++ pyReprDict (e :: rest)

end

/-- Python `str()` of a metadata value: the string itself for a `str`,
`repr` otherwise (this is how `str` behaves on the builtin types in play). -/
def pyStrV : PyVal → String
  | .str s => s
  | v => pyReprV v

/-- The type test on line 360: value is one of the simple types ChromaDB
accepts (`str`, `int`, `float`, `bool`, `NoneType`). -/
def isPrimitiveB : PyVal → Bool
  | .str _ => true
  | .int _ => true
  | .float _ => true
  | .bool _ => true
  | .none => true
  | _ => false

/-- One value of the manual sanitizer fallback in `_filter_document_metadata`
(lines 358-369): simple types are kept, every other value is converted with
`str(value)`.  (The primary path of the function delegates to langchain's
`filter_complex_metadata`, an external collaborator; the in-repo sanitizer is
this fallback, which is also what §4.7 of the spec describes.) -/
def sanitizeValue (v : PyVal) : PyVal :=
  if isPrimitiveB v then v else PyVal.str (pyStrV v)

/-- The sanitizer applied to a whole metadata map (lines 355-370): the dict
is rebuilt key by key in iteration order with sanitized values. -/
def sanitizeMetadata (m : List (String × PyVal)) : List (String × PyVal) :=
  m.map (fun kv => (kv.1, sanitizeValue kv.2))

/-- A langchain document chunk as the batching code sees it: its
`page_content` text and its metadata map. -/
structure Chunk where
  page_content : String
  metadata : List (String × PyVal)

/-- `_filter_document_metadata` applied to one document (line 370:
`doc.metadata = filtered_metadata`). -/
def sanitizeChunk (c : Chunk) : Chunk :=
  ⟨c.page_content, sanitizeMetadata c.metadata⟩

/-- `_filter_document_metadata` over a list of documents (lines 355-375). -/
def sanitizeBatch (b : List Chunk) : List Chunk :=
  b.map sanitizeChunk

/-- `_estimate_tokens` (lines 220-238): `0` for falsy (empty) text, otherwise
`len(text) // 3` base tokens plus the constant `metadata_overhead = 75`. -/
def estimateTokens (text : String) : ℕ :=
  if text = "" then 0 else text.length / 3 + 75

/-- `sum(len(str(v)) for v in chunk.metadata.values())` (lines 254 and 305). -/
def metadataSize (c : Chunk) : ℕ :=
  (c.metadata.map (fun kv => (pyStrV kv.2).length)).sum

/-- Total estimated token cost of one chunk as computed on lines 252-257 and
again on lines 304-308: content estimate plus `metadata_size // 3`. -/
def chunkTokens (c : Chunk) : ℕ :=
  estimateTokens c.page_content + metadataSize c / 3

/-- Sum of the per-chunk (re-estimated) token costs of a batch. -/
def tokenSum (b : List Chunk) : ℕ :=
  (b.map chunkTokens).sum

/-- The greedy accumulation loop of `_split_batch_intelligently`
(lines 316-328): close the current sub-batch when adding the next chunk
would push it past `safe_limit` and the current sub-batch is nonempty. -/
def splitGo (safeLimit : ℕ) : List Chunk → List Chunk → ℕ → List (List Chunk)
  | [], cur, _ => if cur.isEmpty then [] else [cur]
  | c :: rest, cur, curTok =>
    if safeLimit < curTok + chunkTokens c && !cur.isEmpty then
      cur :: splitGo safeLimit rest [c] (chunkTokens c)
    else
      splitGo safeLimit rest (cur ++ [c]) (curTok + chunkTokens c)

/-- `_split_batch_intelligently` (lines 296-335).  A batch of at most one
chunk is returned as-is (line 298-299); otherwise the greedy loop runs with
`safe_limit = int(target_token_limit * 0.5)`, which equals `target / 2` for
every nonnegative int below 2^53. -/
def splitBatchIntelligently (batch : List Chunk) (targetTokenLimit : ℕ) : List (List Chunk) :=
  if batch.length ≤ 1 then (if batch.isEmpty then [] else [batch])
  else splitGo (targetTokenLimit / 2) batch [] 0

/-- Sorted insertion, ascending. -/
def pyInsertSorted (x : ℕ) : List ℕ → List ℕ
  | [] => [x]
  | y :: ys => if x ≤ y then x :: y :: ys else y :: pyInsertSorted x ys

/-- Python `sorted` on a list of ints (ascending). -/
def pySorted (l : List ℕ) : List ℕ :=
  l.foldr pyInsertSorted []

/-- Python `max` on a list of nonnegative ints (`0` on the empty list, which
the code never reaches). -/
def pyMax (l : List ℕ) : ℕ :=
  l.foldr Nat.max 0

/-- The arithmetic part of `_calculate_adaptive_batch_size` (lines 259-294),
already given the per-chunk token estimates of the sample:
mean, max and 80th-percentile of the sample, `conservative = max(mean, p80)`,
`safe_max = int(max_tokens * 0.6)`, initial size
`max(1, int(safe_max / conservative))`, variance-dependent cap 200/500, hard
floor 5 and hard ceiling 800.  `int(len * 0.8)` equals `4 * len / 5` and
`int(max_tokens * 0.6)` equals `max_tokens * 6 / 10` at every input the code
produces (the double computations are exact enough that truncation agrees). -/
def adaptiveBatchSizeFrom (estimates : List ℕ) (maxTokens : ℕ) : ℕ :=
  let avg : ℚ := (estimates.sum : ℚ) / (estimates.length : ℚ)
  let maxIn : ℕ := pyMax estimates
  let p80 : ℕ := (pySorted estimates).getD (4 * estimates.length / 5) 0
  let conservative : ℚ := max avg (p80 : ℚ)
  let safeMax : ℕ := maxTokens * 6 / 10
  let bs1 : ℕ := max 1 (⌊(safeMax : ℚ) / conservative⌋).toNat
  let bs2 : ℕ := if (maxIn : ℚ) > avg * 2 then min bs1 200 else min bs1 500
  min (max bs2 5) 800

/-- `_calculate_adaptive_batch_size` (lines 240-294): `50` for no chunks,
otherwise the arithmetic above on the estimates of the first
`min(50, len(chunks))` chunks. -/
def calculateAdaptiveBatchSize (chunks : List Chunk) (maxTokens : ℕ) : ℕ :=
  if chunks.isEmpty then 50
  else adaptiveBatchSizeFrom ((chunks.take 50).map chunkTokens) maxTokens

/-- `_get_relevance_level` (lines 1200-1211); the raw distance score is an
exact rational here. -/
def getRelevanceLevel (s : ℚ) : String :=
  if s ≤ 3/10 then ("Very High")
  else if s ≤ 5/10 then ("High")
  else if s ≤ 7/10 then ("Medium")
  else if s ≤ 9/10 then ("Low")
  else ("Very Low")

/-- The relevance-band table exactly as the claim words it: "Very High" if
`s ≤ 0.3`, "High" if `0.3 < s ≤ 0.5`, "Medium" if `0.5 < s ≤ 0.7`, "Low" if
`0.7 < s ≤ 0.9`, and "Very Low" otherwise.  This definition follows the
spec text and is compared against `getRelevanceLevel`, which follows the
source. -/
def relevanceBandPerSpec (s : ℚ) : String :=
  if s ≤ 3/10 then ("Very High")
  else if 3/10 < s ∧ s ≤ 5/10 then ("High")
  else if 5/10 < s ∧ s ≤ 7/10 then ("Medium")
  else if 7/10 < s ∧ s ≤ 9/10 then ("Low")
  else ("Very Low")

/-- One step of the batch slicing loop of `_process_chunks_in_batches`
(lines 396-445): the planned batches are the consecutive slices of
`batch_size` chunks (`document_chunks[done : done + batch_size]`), both on
the create path and on the append path.  The first argument is the slice
size, the second a fuel that is always instantiated with the chunk count —
each slice removes at least one chunk, so that fuel suffices. -/
def batchSlicesAux (step : ℕ) : ℕ → List Chunk → List (List Chunk)
  | 0, _ => []
  | _ + 1, [] => []
  | fuel + 1, c :: rest =>
    (c :: rest).take (max step 1) :: batchSlicesAux step fuel ((c :: rest).drop (max step 1))

/-- The sequence of count-based batches submitted by
`_process_chunks_in_batches` for a given batch size (`max step 1` is
irrelevant in practice: the adaptive size has hard floor 5). -/
def batchSlices (step : ℕ) (chunks : List Chunk) : List (List Chunk) :=
  batchSlicesAux step chunks.length chunks

/-- The batches actually submitted by `_process_chunks_in_batches` before any
overflow-triggered splitting: the chunks are first passed through
`_filter_document_metadata` (line 384), the adaptive batch size is computed
on the result (line 387), and the filtered chunks are sliced by count. -/
def plannedBatches (chunks : List Chunk) : List (List Chunk) :=
  batchSlices (calculateAdaptiveBatchSize (sanitizeBatch chunks) 250000) (sanitizeBatch chunks)

/-- The four outcomes of one submission attempt that
`_process_single_batch_with_splitting` distinguishes (lines 486-546):
success, an error message containing "Expected metadata value to be", an
error message containing "max_tokens_per_request", and any other error. -/
inductive Resp where
  | ok
  | metadataErr
  | tokenErr
  | otherErr

/-- The external embedding service / vector store, as an oracle: the response
to submitting a given batch on a given attempt number. -/
def Service : Type := List Chunk → ℕ → Resp

/-- A pending piece of work of the recursive submit-split procedure: either
one batch inside its attempt loop (`attemptsLeft` of the 5-attempt budget
remaining, `attemptNo` the 1-based number of the next attempt), or a list of
sub-batches to submit sequentially (lines 528-535). -/
inductive Job where
  | one (batch : List Chunk) (attemptsLeft : ℕ) (attemptNo : ℕ)
  | many (subs : List (List Chunk))

/-- `_process_single_batch_with_splitting` (lines 480-549), fuel-indexed:
`some r` is the Boolean the Python function returns, `Option.none` means the
fuel ran out before the recursion did.  Fuel is consumed at every step, so an
execution of the Python code terminates exactly when some fuel suffices.
Branches, in the source's order: success returns `True`; a metadata error
re-filters the batch and continues the loop with `attempt += 1` (lines
506-510); a token-ceiling error on a single-chunk batch returns `False`
(lines 514-516), otherwise the batch is split intelligently and each
sub-batch is submitted through the same procedure, stopping at the first
failure (lines 521-538); any other error backs off and continues the loop
with `attempt += 1` (lines 541-546); an exhausted budget returns `False`. -/
def runJob (svc : Service) : ℕ → Job → Option Bool
  | 0, _ => Option.none
  | _ + 1, .one _ 0 _ => some false
  | fuel + 1, .one batch (n + 1) k =>
    match svc batch k with
    | .ok => some true
    | .metadataErr => runJob svc fuel (.one (sanitizeBatch batch) n (k + 1))
    | .otherErr => runJob svc fuel (.one batch n (k + 1))
    | .tokenErr =>
      if batch.length ≤ 1 then some false
      else
        let subs := splitBatchIntelligently batch 250000
        if subs.isEmpty then some false
        else runJob svc fuel (.many subs)
  | _ + 1, .many [] => some true
  | fuel + 1, .many (s :: rest) =>
    match runJob svc fuel (.one s 5 1) with
    | Option.none => Option.none
    | some false => some false
    | some true => runJob svc fuel (.many rest)

/-- One top-level call of `_process_single_batch_with_splitting`: the attempt
loop starts with the full budget of `max_attempts = 5` at attempt 1. -/
def processBatchWithSplitting (svc : Service) (fuel : ℕ) (batch : List Chunk) : Option Bool :=
  runJob svc fuel (.one batch 5 1)

/-- The recursive submit-split procedure terminates on a batch under a given
service behavior iff some amount of fuel makes it return. -/
def processTerminates (svc : Service) (batch : List Chunk) : Prop :=
  ∃ fuel, (processBatchWithSplitting svc fuel batch).isSome = true

/-- Modelled from the spec (§4.5): the variant of the submit-split procedure
the claim describes, in which a metadata-serialization failure re-runs the
sanitizer and retries immediately *without* counting against the 5-attempt
retry budget (`attemptsLeft` is left unchanged; only the call number and the
fuel advance).  All other branches are as in `runJob`.  This definition
follows the spec's words and is compared against `runJob`, which follows the
source. -/
def runJobBudgetFreeSanitize (svc : Service) : ℕ → Job → Option Bool
  | 0, _ => Option.none
  | _ + 1, .one _ 0 _ => some false
  | fuel + 1, .one batch (n + 1) k =>
    match svc batch k with
    | .ok => some true
    | .metadataErr => runJobBudgetFreeSanitize svc fuel (.one (sanitizeBatch batch) (n + 1) (k + 1))
    | .otherErr => runJobBudgetFreeSanitize svc fuel (.one batch n (k + 1))
    | .tokenErr =>
      if batch.length ≤ 1 then some false
      else
        let subs := splitBatchIntelligently batch 250000
        if subs.isEmpty then some false
        else runJobBudgetFreeSanitize svc fuel (.many subs)
  | _ + 1, .many [] => some true
  | fuel + 1, .many (s :: rest) =>
    match runJobBudgetFreeSanitize svc fuel (.one s 5 1) with
    | Option.none => Option.none
    | some false => some false
    | some true => runJobBudgetFreeSanitize svc fuel (.many rest)

/-- The fields of a stored `SourceFileRecord` (`DocumentMetadata`,
lines 36-138) that the claims depend on.  The file-identity, timestamp and
permission fields carry no logic and are omitted. -/
structure FileRecord where
  file_hash : String
  chunk_count : ℕ
  total_characters : ℕ
deriving DecidableEq

/-- One file as the indexing run sees it: its path, the content hash
`_get_file_hash` computes for it now, and the chunks the loader plus text
splitter produce for it. -/
structure FileEntry where
  path : String
  hash : String
  chunks : List Chunk

/-- `DocumentMetadata.from_file_path` (lines 90-138), restricted to the
fields modelled: the record is created with `chunk_count = 0`,
`total_characters = 0` and `file_hash = ""` ("Will be calculated later",
lines 132-134). -/
def fromFilePath (_path : String) : FileRecord :=
  ⟨"", 0, 0⟩

/-- Lookup in the persisted path-to-record mapping (Python dict access). -/
def lookupRecord (m : List (String × FileRecord)) (p : String) : Option FileRecord :=
  (m.find? (fun kv => kv.1 == p)).map (fun kv => kv.2)

/-- Python dict assignment `metadata[file_path] = record`: replace the
existing entry in place, or append a new one. -/
def insertRecord (m : List (String × FileRecord)) (p : String) (r : FileRecord) :
    List (String × FileRecord) :=
  if m.any (fun kv => kv.1 == p) then
    m.map (fun kv => if kv.1 == p then (p, r) else kv)
  else m ++ [(p, r)]

/-- The change-detection test of `index_directory` (lines 740-741): a file
is processed iff its path is absent from the mapping or the stored hash
differs from the current hash. -/
def needsReindex (m : List (String × FileRecord)) (f : FileEntry) : Bool :=
  match lookupRecord m f.path with
  | Option.none => true
  | some r => r.file_hash != f.hash

/-- The in-memory metadata map after the loading stage of `index_directory`
(lines 766-781): starting from the loaded mapping, every file to process
whose loader returned documents gets a fresh `from_file_path` record
(line 774).  In this model every load succeeds. -/
def loadedMetadata (metadata0 : List (String × FileRecord)) (files : List FileEntry) :
    List (String × FileRecord) :=
  (files.filter (needsReindex metadata0)).foldl
    (fun m f => if f.chunks.isEmpty then m else insertRecord m f.path (fromFilePath f.path))
    metadata0

/-- The result of `_process_chunks_in_batches`: overall success flag, chunks
committed before the first failure, the committed chunks themselves, and how
many batch submissions were issued. -/
structure BatchRunOutcome where
  success : Bool
  chunksProcessed : ℕ
  committed : List Chunk
  submissions : ℕ

/-- The sequential submission loop of `_process_chunks_in_batches`
(lines 396-462): batches are submitted in order; a batch that
`_process_single_batch_with_splitting` cannot place ends the run with
`success = False` and the totals accumulated so far. -/
def batchLoop (batchOk : List Chunk → Bool) : List (List Chunk) → BatchRunOutcome
  | [] => ⟨true, 0, [], 0⟩
  | b :: rest =>
    if batchOk b then
      let o := batchLoop batchOk rest
      ⟨o.success, b.length + o.chunksProcessed, b ++ o.committed, o.submissions + 1⟩
    else ⟨false, 0, [], 1⟩

/-- `_process_chunks_in_batches` (lines 377-478): no chunks is a success
(line 380); otherwise all chunks are metadata-filtered (line 384), the
adaptive batch size is computed on the filtered chunks (line 387), and the
count-based slices are submitted sequentially.  `batchOk` abstracts the
Boolean outcome of `_process_single_batch_with_splitting` per batch. -/
def processChunksInBatchesModel (batchOk : List Chunk → Bool) (chunks : List Chunk) :
    BatchRunOutcome :=
  if chunks.isEmpty then ⟨true, 0, [], 0⟩
  else
    batchLoop batchOk (plannedBatches chunks)

/-- What `index_directory` returns and persists, restricted to the fields
the claims mention: the status string, the `files_processed` count, the
`documents_indexed` count, the metadata mapping written by `_save_metadata`
(`Option.none` when the mapping is not written), the chunks committed to the
vector index, and the number of batch submissions (each submission embeds
its chunks, so zero submissions means zero embedding-service calls). -/
structure RunResult where
  status : String
  files_processed : ℕ
  documents_indexed : ℕ
  savedMetadata : Option (List (String × FileRecord))
  committedChunks : List Chunk
  submissions : ℕ

/-- `index_directory` (lines 713-868).  Paths in the source, in order: no
supported files (724-730); all files up to date (744-751, note
`documents_indexed = len(files)` and no save, no embedding calls); parallel
loading, which in this model always succeeds, so `processed_count` is the
number of files to process (759-781); no loadable documents (783-789);
batch processing (799); on success the whole mapping is saved (826); on a
batch failure with some chunks committed the whole mapping is saved and the
status is "partial" (810-823); with zero committed chunks nothing is saved
and the status is "error".  The text splitter is folded into the per-file
chunk lists of `FileEntry`. -/
def indexDirectoryModel (metadata0 : List (String × FileRecord)) (files : List FileEntry)
    (batchOk : List Chunk → Bool) : RunResult :=
  if files.isEmpty then ⟨("completed"), 0, 0, Option.none, [], 0⟩
  else if (files.filter (needsReindex metadata0)).isEmpty then
    ⟨("completed"), 0, files.length, Option.none, [], 0⟩
  else
    let toProcess := files.filter (needsReindex metadata0)
    let metadata1 := loadedMetadata metadata0 files
    let allChunks := (toProcess.map (fun f => f.chunks)).flatten
    if allChunks.isEmpty then ⟨("error"), toProcess.length, 0, Option.none, [], 0⟩
    else
      let o := processChunksInBatchesModel batchOk allChunks
      if o.success then
        ⟨("completed"), toProcess.length, allChunks.length, some metadata1,
          o.committed, o.submissions⟩
      else if 0 < o.chunksProcessed then
        ⟨("partial"), toProcess.length, o.chunksProcessed, some metadata1,
          o.committed, o.submissions⟩
      else
        ⟨("error"), toProcess.length, o.chunksProcessed, Option.none,
          o.committed, o.submissions⟩

/-- One raw hit returned by the vector store for a query: its text and its
distance score. -/
structure SearchHit where
  content : String
  score : ℚ

/-- One entry of the list `search_documents` returns (lines 952-984),
restricted to the fields `forward` consumes. -/
structure RawResult where
  rank : ℕ
  similarity_score : ℚ
  content : String

/-- One formatted entry of the search tool output (lines 1134-1183),
restricted to the fields the claims mention. -/
structure FormattedHit where
  rank : ℕ
  similarity_score : ℚ
  relevance_level : String
  content : String

/-- The state `search_documents` consults: whether `self.vectorstore` is
already set, whether the database path exists on disk, whether loading the
persisted store succeeds, and what the similarity query returns
(`Option.none` models the query raising, which the code converts to an
empty result list on lines 986-988). -/
structure SearchState where
  vectorstoreLoaded : Bool
  dbPathExists : Bool
  loadOk : Bool
  queryHits : Option (List SearchHit)

/-- The message of the `ValueError` raised on line 947 when no vector
database exists. -/
def noIndexMessage : String :=
  "No vector database found. Please index documents first."

/-- `search_documents` (lines 934-988): with no loaded store, a missing
database path raises the no-index `ValueError` (line 947) and a failing load
raises a load error (line 945); a query failure is caught and returned as an
empty list; hits are enumerated into ranked results (line 960). -/
def searchDocuments (st : SearchState) (_query : String) (_k : ℕ) :
    Except String (List RawResult) :=
  if !st.vectorstoreLoaded && !st.dbPathExists then Except.error noIndexMessage
  else if !st.vectorstoreLoaded && !st.loadOk then
    Except.error ("Could not load vector database: backend failure")
  else
    match st.queryHits with
    | Option.none => Except.ok []
    | some hits => Except.ok (hits.enum.map (fun ih => ⟨ih.1 + 1, ih.2.score, ih.2.content⟩))

/-- The part of the search tool output the claims mention (lines 1111-1132:
`query`, `results_count`, the zero-hit `message`, the failure
`error_details`, the formatted results). -/
structure SearchOutput where
  query : String
  results_count : ℕ
  message : Option String
  error_details : Option String
  results : List FormattedHit

/-- A `ToolResult`: structured output plus an optional error string. -/
structure ToolResultModel where
  output : SearchOutput
  error : Option String

/-- `VectorSearchTool.forward` (lines 1105-1198): any exception from
`search_documents` is caught and converted into a `ToolResult` whose output
carries `error_details` and whose `error` field is set (lines 1187-1198); an
empty hit list is a non-error result with an explanatory message
(lines 1110-1119); hits are formatted, each with its relevance band
(lines 1134-1185). -/
def vectorSearchForward (st : SearchState) (query : String) (maxResults : ℕ) :
    ToolResultModel :=
  match searchDocuments st query maxResults with
  | Except.error e =>
    let msg := "Error searching documents: " ++ e
    ⟨⟨query, 0, Option.none, some msg, []⟩, some msg⟩
  | Except.ok [] =>
    ⟨⟨query, 0, some ("No relevant documents found in the indexed collection"),
      Option.none, []⟩, Option.none⟩
  | Except.ok (r :: rs) =>
    ⟨⟨query, (r :: rs).length, Option.none, Option.none,
      (r :: rs).map (fun x =>
        (⟨x.rank, x.similarity_score, getRelevanceLevel x.similarity_score, x.content⟩ :
          FormattedHit))⟩, Option.none⟩

/-- A string of `n` identical characters (used to build chunks of a chosen
size without ever evaluating the text itself). -/
def bigString (n : ℕ) : String :=
  String.mk (List.replicate n 'a')

/-- A two-character chunk with empty metadata: estimated cost
`2 / 3 + 75 = 75` tokens. -/
def cSmall : Chunk :=
  ⟨("hi"), []⟩

/-- A one-character chunk tagged as coming from file A: estimated cost 75
tokens. -/
def tinyChunkA : Chunk :=
  ⟨("x"), [(("source_file"), PyVal.str ("A"))]⟩

/-- A one-character chunk tagged as coming from file B: estimated cost 75
tokens. -/
def tinyChunkB : Chunk :=
  ⟨("x"), [(("source_file"), PyVal.str ("B"))]⟩

/-- A 1575-character chunk with empty metadata: estimated cost
`1575 / 3 + 75 = 600` tokens. -/
def medChunk : Chunk :=
  ⟨bigString 1575, []⟩

/-- The chunk list of the C3 counterexample: 50 small chunks followed by 500
medium chunks.  Every chunk costs at most 600 tokens, far below the 250000
ceiling, but the sample (the first 50 chunks) sees only the small ones. -/
def demoChunksC3 : List Chunk :=
  List.replicate 50 cSmall ++ List.replicate 500 medChunk

/-- A service on which every submission reports a token-ceiling overflow. -/
def svcAlwaysOverflow : Service :=
  fun _ _ => Resp.tokenErr

/-- A service on which every submission succeeds. -/
def svcAlwaysOk : Service :=
  fun _ _ => Resp.ok

/-- A service on which every submission reports a metadata serialization
error. -/
def svcAlwaysMetadataErr : Service :=
  fun _ _ => Resp.metadataErr

/-- A service that reports a metadata serialization error on the first five
calls for a batch and succeeds from the sixth call on. -/
def svcMetadataThenOk : Service :=
  fun _ k => if k ≤ 5 then Resp.metadataErr else Resp.ok

/-- The single unchanged file of the C1 scenario, with the (nonempty) hash
`_get_file_hash` computes for its bytes. -/
def demoFileC1 : FileEntry :=
  ⟨("/docs/note.txt"), ("d41d8cd98f00b204e9800998ecf8427e"), [cSmall]⟩

/-- File A of the C2 scenario: 500 one-character chunks. -/
def demoFileA : FileEntry :=
  ⟨("/docs/a.txt"), ("hashA"), List.replicate 500 tinyChunkA⟩

/-- File B of the C2 scenario: 2 one-character chunks. -/
def demoFileB : FileEntry :=
  ⟨("/docs/b.txt"), ("hashB"), [tinyChunkB, tinyChunkB]⟩

/-- The directory of the C2 scenario. -/
def demoFilesC2 : List FileEntry :=
  [demoFileA, demoFileB]

/-- Whether a chunk carries file B's source tag. -/
def isBChunk (c : Chunk) : Bool :=
  c.metadata.any (fun kv =>
    kv.1 == "source_file" &&
      (match kv.2 with
       | PyVal.str s => s == "B"
       | _ => false))

/-- A batch outcome under which every batch free of file B's chunks commits
and every batch containing one of them permanently fails. -/
def batchOkC2 (b : List Chunk) : Bool :=
  !(b.any isBChunk)

/-- A batch outcome under which every batch commits. -/
def batchOkAll (_b : List Chunk) : Bool :=
  true

/-- C8: for every search hit with raw distance score `s`, the relevance band
attached to the result is "Very High" if `s ≤ 0.3`, "High" if
`0.3 < s ≤ 0.5`, "Medium" if `0.5 < s ≤ 0.7`, "Low" if `0.7 < s ≤ 0.9`, and
"Very Low" otherwise: the source function agrees with the spec table at
every score. -/
theorem c8_relevance_bands (s : ℚ) : getRelevanceLevel s = relevanceBandPerSpec s := by
  unfold getRelevanceLevel relevanceBandPerSpec
  by_cases h1 : s ≤ 3/10
  · simp [h1]
  · by_cases h2 : s ≤ 5/10
    · simp [h1, h2, lt_of_not_ge h1]
    · by_cases h3 : s ≤ 7/10
      · simp [h1, h2, h3, lt_of_not_ge h2]
      · by_cases h4 : s ≤ 9/10
        · simp [h1, h2, h3, h4, lt_of_not_ge h3]
        · simp [h1, h2, h3, h4]

/-- Sanitizing keeps a primitive value unchanged. -/
lemma sanitizeValue_of_primitive (w : PyVal) (h : isPrimitiveB w = true) :
    sanitizeValue w = w :=
  if_pos h

/-- A sanitized value is primitive. -/
lemma isPrimitiveB_sanitizeValue (v : PyVal) : isPrimitiveB (sanitizeValue v) = true := by
  by_cases h : isPrimitiveB v = true
  · rw [sanitizeValue, if_pos h]
    exact h
  · rw [sanitizeValue, if_neg h]
    rfl

/-- A sanitized value is itself sanitized. -/
lemma sanitizeValue_idem (v : PyVal) : sanitizeValue (sanitizeValue v) = sanitizeValue v :=
  sanitizeValue_of_primitive _ (isPrimitiveB_sanitizeValue v)

/-- C9: the metadata sanitizer is idempotent — `Sanitize(Sanitize(m)) =
Sanitize(m)` for every metadata map `m` — and one application leaves every
value primitive-typed. -/
theorem c9_sanitizer_idempotent (m : List (String × PyVal)) :
    sanitizeMetadata (sanitizeMetadata m) = sanitizeMetadata m ∧
      ((sanitizeMetadata m).all (fun kv => isPrimitiveB kv.2)) = true := by
  constructor
  · unfold sanitizeMetadata
    rw [List.map_map]
    apply List.map_congr_left
    intro kv _
    simp [Function.comp, sanitizeValue_idem]
  · unfold sanitizeMetadata
    rw [List.all_eq_true]
    intro kv hkv
    rcases List.mem_map.mp hkv with ⟨kv0, _, rfl⟩
    exact isPrimitiveB_sanitizeValue kv0.2

/-- C6 counterexample: the claim says the estimate is
`len(text)/3 + constant` with the same constant term for *every* input text,
but `_estimate_tokens` returns `0` for the empty string (line 222-223), not
`0/3 + 75 = 75`. -/
theorem c6_empty_text_estimate :
    estimateTokens ("") = 0 ∧ estimateTokens ("") ≠ ("").length / 3 + 75 := by
  constructor
  · rfl
  · decide

/-- C6 (amended): for every nonempty text the per-chunk token estimate is
`len(text)/3` (integer division) plus the fixed constant overhead `75`; the
empty text alone is estimated as `0`, skipping the overhead term. -/
theorem c6_estimate_formula_nonempty (s : String) (h : s ≠ "") :
    estimateTokens s = s.length / 3 + 75 := by
  unfold estimateTokens
  simp [h]

/-- Witness for C6 (amended) at the concrete text "abcd". -/
theorem c6_estimate_formula_nonempty_witness :
    estimateTokens ("abcd") = ("abcd").length / 3 + 75 :=
  c6_estimate_formula_nonempty ("abcd") (by decide)

/-- Token sums add over append. -/
lemma tokenSum_append (l1 l2 : List Chunk) :
    tokenSum (l1 ++ l2) = tokenSum l1 + tokenSum l2 := by
  simp [tokenSum]

/-- Token sum of a singleton batch. -/
lemma tokenSum_singleton (c : Chunk) : tokenSum [c] = chunkTokens c := by
  simp [tokenSum]

/-- Concatenating the output of the greedy split loop restores the pending
chunks after the chunks already accumulated. -/
lemma splitGo_flatten (s : ℕ) (l : List Chunk) :
    ∀ (cur : List Chunk) (t : ℕ), (splitGo s l cur t).flatten = cur ++ l := by
  induction l with
  | nil =>
    intro cur t
    by_cases h : cur.isEmpty
    · simp [splitGo, h, List.isEmpty_iff.mp h]
    · simp [splitGo, h]
  | cons c rest ih =>
    intro cur t
    rw [splitGo]
    by_cases h : (s < t + chunkTokens c && !cur.isEmpty) = true
    · rw [if_pos h]
      simp [ih]
    · rw [if_neg h]
      rw [ih]
      simp

/-- Every sub-batch the greedy split loop emits is nonempty, provided the
accumulated batch is. -/
lemma splitGo_parts_ne_nil (s : ℕ) (l : List Chunk) :
    ∀ (cur : List Chunk) (t : ℕ), cur ≠ [] →
      ∀ b ∈ splitGo s l cur t, b ≠ [] := by
  induction l with
  | nil =>
    intro cur t hcur b hb
    rw [splitGo] at hb
    rw [if_neg (by simpa [List.isEmpty_iff] using hcur)] at hb
    rcases List.mem_singleton.mp hb with rfl
    exact hcur
  | cons c rest ih =>
    intro cur t hcur b hb
    rw [splitGo] at hb
    by_cases h : (s < t + chunkTokens c && !cur.isEmpty) = true
    · rw [if_pos h] at hb
      rcases List.mem_cons.mp hb with rfl | hb'
      · exact hcur
      · exact ih [c] (chunkTokens c) (by simp) b hb'
    · rw [if_neg h] at hb
      exact ih (cur ++ [c]) (t + chunkTokens c) (by simp) b hb

/-- Loop invariant of the greedy split: every emitted sub-batch either has
token sum at most `safe_limit` or is a single chunk. -/
lemma splitGo_sum_le (s : ℕ) (l : List Chunk) :
    ∀ (cur : List Chunk), (tokenSum cur ≤ s ∨ cur.length ≤ 1) →
      ∀ b ∈ splitGo s l cur (tokenSum cur), tokenSum b ≤ s ∨ b.length ≤ 1 := by
  induction l with
  | nil =>
    intro cur hcur b hb
    rw [splitGo] at hb
    by_cases h : cur.isEmpty
    · rw [if_pos h] at hb
      simp at hb
    · rw [if_neg h] at hb
      rcases List.mem_singleton.mp hb with rfl
      exact hcur
  | cons c rest ih =>
    intro cur hcur b hb
    rw [splitGo] at hb
    by_cases h : (s < tokenSum cur + chunkTokens c && !cur.isEmpty) = true
    · rw [if_pos h] at hb
      rcases List.mem_cons.mp hb with rfl | hb'
      · exact hcur
      · have h1 : tokenSum [c] ≤ s ∨ ([c] : List Chunk).length ≤ 1 := Or.inr (by simp)
        have := ih [c] h1
        rw [tokenSum_singleton] at this
        exact this b hb'
    · rw [if_neg h] at hb
      have hsum : tokenSum (cur ++ [c]) = tokenSum cur + chunkTokens c := by
        rw [tokenSum_append, tokenSum_singleton]
      have hcases : cur = [] ∨ tokenSum cur + chunkTokens c ≤ s := by
        by_cases hcur : cur.isEmpty
        · exact Or.inl (List.isEmpty_iff.mp hcur)
        · right
          by_contra hgt
          apply h
          simp only [Bool.and_eq_true, decide_eq_true_eq, Bool.not_eq_true']
          exact ⟨Nat.lt_of_not_le hgt, Bool.eq_false_iff.mpr hcur⟩
      have hinv : tokenSum (cur ++ [c]) ≤ s ∨ (cur ++ [c]).length ≤ 1 := by
        rcases hcases with rfl | hle
        · right
          simp
        · left
          rw [hsum]
          exact hle
      have := ih (cur ++ [c]) hinv
      rw [hsum] at this
      exact this b hb

/-- The greedy split loop starts by moving the first chunk into the empty
accumulator. -/
lemma splitGo_nil_start (s : ℕ) (c : Chunk) (rest : List Chunk) :
    splitGo s (c :: rest) [] 0 = splitGo s rest [c] (chunkTokens c) := by
  rw [splitGo]
  simp

/-- C10: the sub-batches produced by `_split_batch_intelligently`,
concatenated in order, equal the input list exactly — no chunk is dropped,
duplicated, or reordered — and for every nonempty input the result is a
nonempty sequence of nonempty sub-batches. -/
theorem c10_split_preserves_chunks (batch : List Chunk) (target : ℕ) :
    (splitBatchIntelligently batch target).flatten = batch ∧
      (batch ≠ [] →
        splitBatchIntelligently batch target ≠ [] ∧
          ∀ b ∈ splitBatchIntelligently batch target, b ≠ []) := by
  cases batch with
  | nil => simp [splitBatchIntelligently]
  | cons c rest =>
    cases rest with
    | nil => simp [splitBatchIntelligently]
    | cons c2 rest2 =>
      have hlen : ¬((c :: c2 :: rest2 : List Chunk).length ≤ 1) := by simp
      rw [splitBatchIntelligently, if_neg hlen, splitGo_nil_start]
      refine ⟨by simpa using splitGo_flatten (target / 2) (c2 :: rest2) [c] (chunkTokens c),
        fun _ => ⟨?_, splitGo_parts_ne_nil _ _ [c] (chunkTokens c) (by simp)⟩⟩
      intro hnil
      have hfl := splitGo_flatten (target / 2) (c2 :: rest2) [c] (chunkTokens c)
      rw [hnil] at hfl
      simp at hfl

/-- Witness for C10 at a concrete two-chunk batch. -/
theorem c10_split_preserves_chunks_witness :
    (splitBatchIntelligently [cSmall, cSmall] 250000).flatten = [cSmall, cSmall] ∧
      splitBatchIntelligently [cSmall, cSmall] 250000 ≠ [] :=
  ⟨(c10_split_preserves_chunks [cSmall, cSmall] 250000).1,
    ((c10_split_preserves_chunks [cSmall, cSmall] 250000).2 (by simp)).1⟩

/-- C3 (amended): every sub-batch produced by the overflow splitter
`_split_batch_intelligently` has a token sum within the ceiling whenever
every chunk individually fits under the ceiling (each sub-batch is either
kept under the stricter 50%-of-ceiling target or is a single chunk). -/
theorem c3_split_batches_respect_ceiling (batch : List Chunk) (target : ℕ)
    (hchunks : ∀ c ∈ batch, chunkTokens c ≤ target) :
    ∀ b ∈ splitBatchIntelligently batch target, tokenSum b ≤ target := by
  intro b hb
  cases batch with
  | nil => simp [splitBatchIntelligently] at hb
  | cons c rest =>
    cases rest with
    | nil =>
      simp [splitBatchIntelligently] at hb
      subst hb
      rw [tokenSum_singleton]
      exact hchunks c (by simp)
    | cons c2 rest2 =>
      have hlen : ¬((c :: c2 :: rest2 : List Chunk).length ≤ 1) := by simp
      rw [splitBatchIntelligently, if_neg hlen, splitGo_nil_start] at hb
      rw [← tokenSum_singleton c] at hb
      have hbase : tokenSum [c] ≤ target / 2 ∨ ([c] : List Chunk).length ≤ 1 :=
        Or.inr (by simp)
      rcases splitGo_sum_le (target / 2) (c2 :: rest2) [c] hbase b hb with hle | hlen1
      · exact le_trans hle (Nat.div_le_self _ _)
      · have hbne : b ≠ [] := by
          rw [tokenSum_singleton] at hb
          exact splitGo_parts_ne_nil _ _ [c] (chunkTokens c) (by simp) b hb
        have : b.length = 1 :=
          Nat.le_antisymm hlen1 (List.length_pos.mpr hbne)
        rcases List.length_eq_one.mp this with ⟨x, rfl⟩
        have hxmem : x ∈ (splitGo (target / 2) (c2 :: rest2) [c] (tokenSum [c])).flatten :=
          List.mem_flatten.mpr ⟨[x], hb, by simp⟩
        rw [tokenSum_singleton] at hxmem
        rw [splitGo_flatten] at hxmem
        rw [tokenSum_singleton]
        exact hchunks x (by simpa using hxmem)

/-- Witness for C3 (amended) at a concrete one-chunk batch. -/
theorem c3_split_batches_respect_ceiling_witness :
    tokenSum [cSmall] ≤ 250000 :=
  c3_split_batches_respect_ceiling [cSmall] 250000
    (by
      intro c hc
      rw [List.mem_singleton.mp hc]
      decide)
    [cSmall]
    (by simp [splitBatchIntelligently])

/-- Length of a constructed string. -/
lemma bigString_length (n : ℕ) : (bigString n).length = n := by
  show (List.replicate n 'a').length = n
  simp

/-- A constructed string of positive length is nonempty. -/
lemma bigString_ne_empty (n : ℕ) (h : n ≠ 0) : bigString n ≠ "" := by
  intro he
  have hlen := congrArg String.length he
  rw [bigString_length] at hlen
  exact h hlen

/-- Token cost of the small demo chunk. -/
lemma chunkTokens_cSmall : chunkTokens cSmall = 75 := by decide

/-- Token cost of the medium demo chunk. -/
lemma chunkTokens_medChunk : chunkTokens medChunk = 600 := by
  show estimateTokens (bigString 1575) + metadataSize medChunk / 3 = 600
  rw [estimateTokens, if_neg (bigString_ne_empty 1575 (by norm_num)), bigString_length]
  rfl

/-- The sanitizer does not change the medium demo chunk. -/
lemma sanitizeChunk_medChunk : sanitizeChunk medChunk = medChunk := rfl

/-- The sanitizer does not change the C3 demo chunks. -/
lemma sanitizeBatch_demoC3 : sanitizeBatch demoChunksC3 = demoChunksC3 := by
  show (List.replicate 50 cSmall ++ List.replicate 500 medChunk).map sanitizeChunk =
    List.replicate 50 cSmall ++ List.replicate 500 medChunk
  rw [List.map_append, List.map_replicate, List.map_replicate, sanitizeChunk_medChunk]
  rfl

/-- Inserting a value into a constant sorted list of itself. -/
lemma pyInsertSorted_replicate (x n : ℕ) :
    pyInsertSorted x (List.replicate n x) = List.replicate (n + 1) x := by
  cases n with
  | zero => rfl
  | succ m =>
    rw [List.replicate_succ, pyInsertSorted, if_pos (le_refl x), ← List.replicate_succ,
      ← List.replicate_succ]

/-- Sorting a constant list is the identity. -/
lemma pySorted_replicate (x n : ℕ) :
    pySorted (List.replicate n x) = List.replicate n x := by
  induction n with
  | zero => rfl
  | succ m ih =>
    rw [List.replicate_succ]
    show pyInsertSorted x (pySorted (List.replicate m x)) = _
    rw [ih, pyInsertSorted_replicate, ← List.replicate_succ]

/-- Reading an in-range index out of a constant list. -/
lemma getD_replicate (x : ℕ) : ∀ (n i : ℕ), i < n → (List.replicate n x).getD i 0 = x := by
  intro n
  induction n with
  | zero =>
    intro i hi
    omega
  | succ m ih =>
    intro i hi
    rw [List.replicate_succ]
    cases i with
    | zero => rfl
    | succ j => exact ih j (by omega)

/-- The maximum of a nonempty constant list. -/
lemma pyMax_replicate (x : ℕ) : ∀ n : ℕ, n ≠ 0 → pyMax (List.replicate n x) = x := by
  intro n
  induction n with
  | zero =>
    intro h
    omega
  | succ m ih =>
    intro _
    rw [List.replicate_succ]
    show Nat.max x (pyMax (List.replicate m x)) = x
    cases m with
    | zero =>
      show Nat.max x (pyMax []) = x
      rw [show pyMax [] = 0 from rfl]
      exact Nat.max_zero x
    | succ m' =>
      rw [ih (by omega)]
      exact Nat.max_self x

/-- The adaptive batch size computed from any nonempty sample of uniform
75-token estimates: `avg = p80 = 75`, `int(150000 / 75) = 2000`, low
variance caps it at 500. -/
lemma adaptiveFrom_replicate75 (n : ℕ) (h : n ≠ 0) :
    adaptiveBatchSizeFrom (List.replicate n 75) 250000 = 500 := by
  have h1 : (List.replicate n (75 : ℕ)).sum = n * 75 := by
    simp [List.sum_replicate]
  have h2 : (List.replicate n (75 : ℕ)).length = n := by simp
  have h4 : pyMax (List.replicate n 75) = 75 := pyMax_replicate 75 n h
  have h3 : (pySorted (List.replicate n 75)).getD (4 * n / 5) 0 = 75 := by
    rw [pySorted_replicate]
    refine getD_replicate 75 n (4 * n / 5) ?_
    have := (Nat.div_lt_iff_lt_mul (show 0 < 5 by norm_num)).mpr
      (show 4 * n < n * 5 by omega)
    exact this
  rw [adaptiveBatchSizeFrom, h1, h2, h3, h4]
  have hn : ((n : ℚ)) ≠ 0 := Nat.cast_ne_zero.mpr h
  have havg : ((n * 75 : ℕ) : ℚ) / ((n : ℕ) : ℚ) = 75 := by
    push_cast
    rw [mul_comm, mul_div_assoc, div_self hn, mul_one]
  rw [havg]
  have hmax : max (75 : ℚ) ((75 : ℕ) : ℚ) = 75 := by norm_num
  rw [hmax]
  have hfloor : (⌊(((250000 * 6 / 10 : ℕ)) : ℚ) / (75 : ℚ)⌋ : ℤ) = 2000 := by norm_num
  rw [hfloor]
  have hvar : ¬(((75 : ℕ) : ℚ) > 75 * 2) := by norm_num
  rw [if_neg hvar]
  decide

/-- The adaptive batch size for the C3 demo chunks is 500: the sample (the
first 50 chunks) sees only the 75-token chunks. -/
lemma adaptive_demoC3 :
    calculateAdaptiveBatchSize (sanitizeBatch demoChunksC3) 250000 = 500 := by
  rw [sanitizeBatch_demoC3]
  rw [calculateAdaptiveBatchSize]
  rw [if_neg (by
    show ¬(demoChunksC3.isEmpty = true)
    rw [List.isEmpty_iff]
    show ¬(List.replicate 50 cSmall ++ List.replicate 500 medChunk = [])
    simp)]
  have htake : demoChunksC3.take 50 = List.replicate 50 cSmall := by
    show (List.replicate 50 cSmall ++ List.replicate 500 medChunk).take 50 =
      List.replicate 50 cSmall
    rw [List.take_append_eq_append_take]
    simp [List.take_replicate]
  rw [htake, List.map_replicate, chunkTokens_cSmall]
  exact adaptiveFrom_replicate75 50 (by norm_num)

/-- Token sum of a constant batch. -/
lemma tokenSum_replicate (n : ℕ) (c : Chunk) :
    tokenSum (List.replicate n c) = n * chunkTokens c := by
  simp [tokenSum, List.map_replicate, List.sum_replicate]

/-- The first planned batch of the C3 demo run is the first 500 chunks. -/
lemma plannedBatches_demoC3_head :
    (plannedBatches demoChunksC3).headI =
      List.replicate 50 cSmall ++ List.replicate 450 medChunk := by
  rw [plannedBatches, adaptive_demoC3, sanitizeBatch_demoC3, batchSlices]
  have hlen : demoChunksC3.length = 550 := by
    show (List.replicate 50 cSmall ++ List.replicate 500 medChunk).length = 550
    simp
  rw [hlen]
  have hcons : demoChunksC3 = cSmall :: (List.replicate 49 cSmall ++ List.replicate 500 medChunk) := by
    show List.replicate 50 cSmall ++ List.replicate 500 medChunk = _
    rw [show (50 : ℕ) = 49 + 1 from rfl, List.replicate_succ, List.cons_append]
  rw [hcons, batchSlicesAux]
  rw [List.headI]
  have h501 : max (500 : ℕ) 1 = 500 := by decide
  rw [h501]
  rw [← List.cons_append, ← List.replicate_succ, show (49 + 1 : ℕ) = 50 from rfl]
  rw [List.take_append_eq_append_take]
  simp [List.take_replicate]

/-- C3 counterexample: in the C3 demo directory every chunk costs at most
600 tokens — far below the 250000 ceiling — yet the first count-based batch
that `_process_chunks_in_batches` submits (the head of the planned slices,
which is always submitted before any overflow handling) carries an estimated
273750 tokens, exceeding the ceiling.  The claim fails for the batches
produced by the adaptive batcher; only the overflow splitter's sub-batches
respect the ceiling. -/
theorem c3_initial_batch_exceeds_ceiling :
    demoChunksC3.all (fun c => chunkTokens c < 250000) = true ∧
      250000 < tokenSum ((plannedBatches demoChunksC3).headI) := by
  constructor
  · rw [List.all_eq_true]
    intro c hc
    have hc' : c ∈ List.replicate 50 cSmall ++ List.replicate 500 medChunk := hc
    rcases List.mem_append.mp hc' with hm | hm
    · rw [(List.eq_of_mem_replicate hm : c = cSmall)]
      simp [chunkTokens_cSmall]
    · rw [(List.eq_of_mem_replicate hm : c = medChunk)]
      simp [chunkTokens_medChunk]
  · rw [plannedBatches_demoC3_head, tokenSum_append, tokenSum_replicate, tokenSum_replicate,
      chunkTokens_cSmall, chunkTokens_medChunk]
    norm_num

/-- Sanitizing a batch preserves its length. -/
lemma sanitizeBatch_length (b : List Chunk) : (sanitizeBatch b).length = b.length := by
  simp [sanitizeBatch]

/-- In a sequence of at least two nonempty parts, each part is strictly
shorter than the concatenation. -/
lemma length_lt_of_mem_parts (parts : List (List Chunk)) (h2 : 2 ≤ parts.length)
    (hne : ∀ p ∈ parts, p ≠ []) : ∀ p ∈ parts, p.length < parts.flatten.length := by
  cases parts with
  | nil => simp at h2
  | cons a rest =>
    intro p hp
    rcases List.mem_cons.mp hp with rfl | hpr
    · cases rest with
      | nil => simp at h2
      | cons q rest2 =>
        have hq : q ≠ [] := hne q (by simp)
        have hq1 : 1 ≤ q.length := List.length_pos.mpr hq
        simp only [List.flatten_cons, List.length_append]
        have : 1 ≤ (q :: rest2).flatten.length := by
          simp only [List.flatten_cons, List.length_append]
          omega
        omega
    · have ha : a ≠ [] := hne a (by simp)
      have ha1 : 1 ≤ a.length := List.length_pos.mpr ha
      have hple : p.length ≤ rest.flatten.length := by
        have hmem : p.length ∈ (rest.map List.length) := List.mem_map_of_mem _ hpr
        have := List.single_le_sum (fun (x : ℕ) (_ : x ∈ rest.map List.length) => Nat.zero_le x)
          _ hmem
        rw [← List.length_flatten] at this
        exact this
      simp only [List.flatten_cons, List.length_append]
      omega

/-- A batch of at least two chunks whose token sum exceeds the 50%-of-ceiling
target is split into at least two sub-batches. -/
lemma split_ge_two_parts (batch : List Chunk) (target : ℕ)
    (h2 : 2 ≤ batch.length) (hsum : target / 2 < tokenSum batch) :
    2 ≤ (splitBatchIntelligently batch target).length := by
  cases batch with
  | nil => simp at h2
  | cons c rest =>
    cases rest with
    | nil => simp at h2
    | cons c2 rest2 =>
      have hlen : ¬((c :: c2 :: rest2 : List Chunk).length ≤ 1) := by simp
      rw [splitBatchIntelligently, if_neg hlen, splitGo_nil_start]
      by_contra hlt
      have hle1 : (splitGo (target / 2) (c2 :: rest2) [c] (chunkTokens c)).length ≤ 1 := by
        omega
      have hfl := splitGo_flatten (target / 2) (c2 :: rest2) [c] (chunkTokens c)
      rcases Nat.le_one_iff_eq_zero_or_eq_one.mp hle1 with h0 | h1
      · rw [List.length_eq_zero.mp h0] at hfl
        simp at hfl
      · rcases List.length_eq_one.mp h1 with ⟨b0, hb0⟩
        rw [hb0] at hfl
        simp only [List.flatten_cons, List.flatten_nil, List.append_nil] at hfl
        have hmem : b0 ∈ splitGo (target / 2) (c2 :: rest2) [c] (chunkTokens c) := by
          rw [hb0]
          simp
        rw [← tokenSum_singleton c] at hmem
        rcases splitGo_sum_le (target / 2) (c2 :: rest2) [c]
          (Or.inr (by simp)) b0 hmem with hss | hl1
        · rw [hfl] at hss
          rw [show tokenSum (c :: c2 :: rest2) = tokenSum ([c] ++ c2 :: rest2) from rfl] at hsum
          omega
        · rw [hfl] at hl1
          simp at hl1

/-- Concatenating the sub-batches of the splitter restores the batch. -/
lemma split_flatten (batch : List Chunk) (target : ℕ) :
    (splitBatchIntelligently batch target).flatten = batch := by
  cases batch with
  | nil => simp [splitBatchIntelligently]
  | cons c rest =>
    cases rest with
    | nil => simp [splitBatchIntelligently]
    | cons c2 rest2 =>
      have hlen : ¬((c :: c2 :: rest2 : List Chunk).length ≤ 1) := by simp
      rw [splitBatchIntelligently, if_neg hlen, splitGo_nil_start]
      simpa using splitGo_flatten (target / 2) (c2 :: rest2) [c] (chunkTokens c)

/-- Every sub-batch of a batch of at least two chunks is nonempty. -/
lemma split_parts_nonempty (batch : List Chunk) (target : ℕ)
    (h2 : 2 ≤ batch.length) :
    ∀ b ∈ splitBatchIntelligently batch target, b ≠ [] := by
  cases batch with
  | nil => simp at h2
  | cons c rest =>
    cases rest with
    | nil => simp at h2
    | cons c2 rest2 =>
      have hlen : ¬((c :: c2 :: rest2 : List Chunk).length ≤ 1) := by simp
      rw [splitBatchIntelligently, if_neg hlen, splitGo_nil_start]
      exact splitGo_parts_ne_nil _ _ [c] (chunkTokens c) (by simp)

/-- Every sub-batch produced for an overflowing batch of at least two chunks
is strictly shorter than the batch. -/
lemma split_parts_shorter (batch : List Chunk) (target : ℕ)
    (h2 : 2 ≤ batch.length) (hsum : target / 2 < tokenSum batch) :
    ∀ b ∈ splitBatchIntelligently batch target, b.length < batch.length := by
  intro b hb
  have hflat := split_flatten batch target
  have hne := split_parts_nonempty batch target h2
  have h2p := split_ge_two_parts batch target h2 hsum
  have := length_lt_of_mem_parts (splitBatchIntelligently batch target) h2p hne b hb
  rw [hflat] at this
  exact this


/-- Fuel monotonicity: a result reached with some fuel is reached with one
more unit of fuel. -/
lemma runJob_mono (svc : Service) :
    ∀ (f : ℕ) (j : Job) (b : Bool), runJob svc f j = some b → runJob svc (f + 1) j = some b := by
  intro f
  induction f with
  | zero =>
    intro j b h
    simp [runJob] at h
  | succ f' ih =>
    intro j b h
    cases j with
    | one batch n k =>
      cases n with
      | zero =>
        simp only [runJob] at h ⊢
        exact h
      | succ n' =>
        rw [runJob] at h
        rw [runJob]
        cases hresp : svc batch k <;> rw [hresp] at h
        · exact h
        · exact ih _ _ h
        · by_cases hone : batch.length ≤ 1
          · rw [if_pos hone] at h
            rw [if_pos hone]
            exact h
          · rw [if_neg hone] at h
            rw [if_neg hone]
            simp only at h ⊢
            by_cases hemp : (splitBatchIntelligently batch 250000).isEmpty
            · rw [if_pos hemp] at h
              rw [if_pos hemp]
              exact h
            · rw [if_neg hemp] at h
              rw [if_neg hemp]
              exact ih _ _ h
        · exact ih _ _ h
    | many subs =>
      cases subs with
      | nil =>
        simp only [runJob] at h ⊢
        exact h
      | cons s rest =>
        rw [runJob] at h
        rw [runJob]
        cases hres : runJob svc f' (.one s 5 1) with
        | none =>
          rw [hres] at h
          simp at h
        | some b1 =>
          rw [hres] at h
          rw [ih _ _ hres]
          cases b1 with
          | false => exact h
          | true => exact ih _ _ h

/-- Fuel monotonicity, arbitrary increase. -/
lemma runJob_mono_ge (svc : Service) {f f' : ℕ} (hle : f ≤ f') {j : Job} {b : Bool}
    (h : runJob svc f j = some b) : runJob svc f' j = some b := by
  induction f', hle using Nat.le_induction with
  | base => exact h
  | succ f'' _ ih => exact runJob_mono svc f'' j b ih

/-- If each sub-batch terminates, the sequential sub-batch loop terminates. -/
lemma terminates_many (svc : Service) (subs : List (List Chunk))
    (h : ∀ s ∈ subs, ∃ f bb, runJob svc f (.one s 5 1) = some bb) :
    ∃ f bb, runJob svc f (.many subs) = some bb := by
  induction subs with
  | nil => exact ⟨1, true, rfl⟩
  | cons s rest ih =>
    obtain ⟨f1, b1, h1⟩ := h s (by simp)
    obtain ⟨f2, b2, h2⟩ := ih (fun x hx => h x (List.mem_cons_of_mem _ hx))
    have h1' : runJob svc (max f1 f2) (.one s 5 1) = some b1 :=
      runJob_mono_ge svc (le_max_left _ _) h1
    have h2' : runJob svc (max f1 f2) (.many rest) = some b2 :=
      runJob_mono_ge svc (le_max_right _ _) h2
    cases b1 with
    | false =>
      refine ⟨max f1 f2 + 1, false, ?_⟩
      rw [runJob, h1']
    | true =>
      refine ⟨max f1 f2 + 1, b2, ?_⟩
      rw [runJob, h1']
      exact h2'

/-- The attempt loop terminates on the empty batch (a token-ceiling report on
it hits the single-chunk case, so no recursion happens). -/
lemma terminates_nil (svc : Service) : ∀ (m k : ℕ),
    ∃ f bb, runJob svc f (.one [] m k) = some bb := by
  intro m
  induction m with
  | zero => exact fun k => ⟨1, false, rfl⟩
  | succ n ihm =>
    intro k
    cases hresp : svc [] k with
    | ok =>
      refine ⟨1, true, ?_⟩
      rw [runJob, hresp]
    | metadataErr =>
      obtain ⟨f, bb, hf⟩ := ihm (k + 1)
      refine ⟨f + 1, bb, ?_⟩
      rw [runJob, hresp]
      exact hf
    | otherErr =>
      obtain ⟨f, bb, hf⟩ := ihm (k + 1)
      refine ⟨f + 1, bb, ?_⟩
      rw [runJob, hresp]
      exact hf
    | tokenErr =>
      refine ⟨1, false, ?_⟩
      rw [runJob, hresp]
      rw [if_pos (by simp)]

/-- The attempt loop terminates on batches of length at most `N + 1` as soon
as the full procedure terminates on every batch of length at most `N`,
provided the service reports a token-ceiling overflow only on batches whose
estimated sum exceeds the 50%-of-ceiling split target. -/
lemma terminates_loop (svc : Service)
    (hsvc : ∀ b k, svc b k = Resp.tokenErr → 125000 < tokenSum b)
    (N : ℕ)
    (hrec : ∀ batch : List Chunk, batch.length ≤ N →
      ∃ f bb, runJob svc f (.one batch 5 1) = some bb) :
    ∀ (m : ℕ) (batch : List Chunk), batch.length ≤ N + 1 → ∀ k : ℕ,
      ∃ f bb, runJob svc f (.one batch m k) = some bb := by
  intro m
  induction m with
  | zero => exact fun batch _ k => ⟨1, false, rfl⟩
  | succ n ihm =>
    intro batch hlen k
    cases hresp : svc batch k with
    | ok =>
      refine ⟨1, true, ?_⟩
      rw [runJob, hresp]
    | metadataErr =>
      obtain ⟨f, bb, hf⟩ := ihm (sanitizeBatch batch)
        (by rw [sanitizeBatch_length]; exact hlen) (k + 1)
      refine ⟨f + 1, bb, ?_⟩
      rw [runJob, hresp]
      exact hf
    | otherErr =>
      obtain ⟨f, bb, hf⟩ := ihm batch hlen (k + 1)
      refine ⟨f + 1, bb, ?_⟩
      rw [runJob, hresp]
      exact hf
    | tokenErr =>
      by_cases hone : batch.length ≤ 1
      · refine ⟨1, false, ?_⟩
        rw [runJob, hresp]
        rw [if_pos hone]
      · have h2 : 2 ≤ batch.length := by omega
        have hsum : 250000 / 2 < tokenSum batch := hsvc batch k hresp
        have h2p := split_ge_two_parts batch 250000 h2 hsum
        have hshort := split_parts_shorter batch 250000 h2 hsum
        have hsubs : ∀ s ∈ splitBatchIntelligently batch 250000,
            ∃ f bb, runJob svc f (.one s 5 1) = some bb := by
          intro s hs
          exact hrec s (by have := hshort s hs; omega)
        obtain ⟨f, bb, hf⟩ := terminates_many svc _ hsubs
        refine ⟨f + 1, bb, ?_⟩
        rw [runJob, hresp]
        rw [if_neg hone]
        simp only
        rw [if_neg (by
          rw [List.isEmpty_iff]
          intro hnil
          rw [hnil] at h2p
          simp at h2p)]
        exact hf

/-- The full submit-split procedure terminates on every batch, provided the
service reports a token-ceiling overflow only on batches whose estimated sum
exceeds the 50%-of-ceiling split target. -/
lemma terminates_main (svc : Service)
    (hsvc : ∀ b k, svc b k = Resp.tokenErr → 125000 < tokenSum b) :
    ∀ (N : ℕ) (batch : List Chunk), batch.length ≤ N →
      ∃ f bb, runJob svc f (.one batch 5 1) = some bb := by
  intro N
  induction N with
  | zero =>
    intro batch hlen
    rw [List.length_eq_zero.mp (Nat.le_zero.mp hlen)]
    exact terminates_nil svc 5 1
  | succ N ihN =>
    intro batch hlen
    exact terminates_loop svc hsvc N ihN 5 batch hlen 1

/-- The splitter returns a two-chunk batch of 75-token chunks unchanged as a
single sub-batch: the greedy loop never reaches the 125000-token target. -/
lemma split_two_cSmall :
    splitBatchIntelligently [cSmall, cSmall] 250000 = [[cSmall, cSmall]] := rfl

/-- Under a service that always reports token-ceiling overflow, the recursion
on the two-small-chunk batch makes no progress at any fuel. -/
lemma c4_loop_aux : ∀ f : ℕ,
    runJob svcAlwaysOverflow f (.one [cSmall, cSmall] 5 1) = Option.none ∧
      runJob svcAlwaysOverflow f (.many [[cSmall, cSmall]]) = Option.none := by
  intro f
  induction f with
  | zero => exact ⟨rfl, rfl⟩
  | succ f' ih =>
    constructor
    · rw [runJob]
      rw [show svcAlwaysOverflow [cSmall, cSmall] 1 = Resp.tokenErr from rfl]
      rw [if_neg (by simp)]
      simp only [split_two_cSmall]
      rw [if_neg (by simp)]
      exact ih.2
    · rw [runJob]
      rw [ih.1]

/-- C4 counterexample: on a two-chunk batch whose estimated token sum (150)
is far below the 50%-of-ceiling split target, `_split_batch_intelligently`
returns the batch unchanged as one sub-batch, so if the service keeps
reporting token-ceiling overflow the recursion re-submits the identical
batch forever: the procedure does not terminate, contradicting the claim
that it never recurses infinitely even under persistent overflow reports. -/
theorem c4_overflow_loop_diverges :
    ¬ processTerminates svcAlwaysOverflow [cSmall, cSmall] := by
  rintro ⟨f, hf⟩
  rw [processBatchWithSplitting] at hf
  rw [(c4_loop_aux f).1] at hf
  simp at hf

/-- C4 (amended): the recursive submit-split procedure terminates — ending
in a commit, an abandonment, or a reported failure — for every batch and
every service behavior that reports a token-ceiling overflow only on batches
whose re-estimated token sum exceeds the 125000-token (50%-of-ceiling) split
target; without that conservativity assumption the recursion can loop
forever (see the counterexample). -/
theorem c4_split_terminates_under_conservative_service (svc : Service) (batch : List Chunk)
    (hsvc : ∀ b k, svc b k = Resp.tokenErr → 125000 < tokenSum b) :
    processTerminates svc batch := by
  obtain ⟨f, bb, hf⟩ := terminates_main svc hsvc batch.length batch le_rfl
  refine ⟨f, ?_⟩
  rw [processBatchWithSplitting, hf]
  rfl

/-- Witness for C4 (amended) at a concrete service and batch. -/
theorem c4_split_terminates_witness :
    processTerminates svcAlwaysOk [cSmall, cSmall] :=
  c4_split_terminates_under_conservative_service svcAlwaysOk [cSmall, cSmall]
    (by
      intro b k h
      simp [svcAlwaysOk] at h)

/-- C5 counterexample: under a service that reports a metadata serialization
error on the first five calls and would succeed from the sixth, the source
executor gives up with `False` — each sanitize-and-retry consumed one unit
of the 5-attempt budget (`attempt += 1` on line 509) and the sixth call is
never made.  The budget-free executor the claim describes reaches the sixth
call and succeeds on the same input. -/
theorem c5_metadata_retry_consumes_budget :
    processBatchWithSplitting svcMetadataThenOk 10 [cSmall] = some false ∧
      runJobBudgetFreeSanitize svcMetadataThenOk 10 (.one [cSmall] 5 1) = some true := by
  constructor
  · rfl
  · rfl

/-- With `n + 1` fuel, a service that always reports metadata errors drives
the attempt loop from `n` remaining attempts to failure. -/
lemma c5_budget_aux (svc : Service) (hsvc : ∀ b k, svc b k = Resp.metadataErr) :
    ∀ (n : ℕ) (batch : List Chunk) (k fuel : ℕ), n + 1 ≤ fuel →
      runJob svc fuel (.one batch n k) = some false := by
  intro n
  induction n with
  | zero =>
    intro batch k fuel hfuel
    cases fuel with
    | zero => omega
    | succ f => rfl
  | succ n' ih =>
    intro batch k fuel hfuel
    cases fuel with
    | zero => omega
    | succ f =>
      rw [runJob, hsvc batch k]
      exact ih (sanitizeBatch batch) (k + 1) f (by omega)

/-- C5 (amended): a metadata-serialization failure makes the executor re-run
the sanitizer on the batch and retry immediately (no backoff sleep), but the
attempt *does* count against the same 5-attempt budget shared with transient
failures: five consecutive metadata failures exhaust the budget and the
batch is reported failed. -/
theorem c5_metadata_failures_exhaust_budget (svc : Service) (batch : List Chunk) (fuel : ℕ)
    (hsvc : ∀ b k, svc b k = Resp.metadataErr) (hfuel : 6 ≤ fuel) :
    processBatchWithSplitting svc fuel batch = some false :=
  c5_budget_aux svc hsvc 5 batch 1 fuel hfuel

/-- Witness for C5 (amended) at a concrete service, batch and fuel. -/
theorem c5_metadata_failures_exhaust_budget_witness :
    processBatchWithSplitting svcAlwaysMetadataErr 6 [cSmall] = some false :=
  c5_metadata_failures_exhaust_budget svcAlwaysMetadataErr [cSmall] 6
    (fun _ _ => rfl) (by norm_num)

/-- C7: for every query and every result count, calling the search tool with
no vector database on disk returns a result (not an exception) whose error
and `error_details` carry exactly the no-index message — distinguishable
from every other outcome — with zero results; and a query against an
existing index that matches nothing is a valid non-error result with zero
results and an explanatory message. -/
theorem c7_search_no_index_and_zero_hits (q : String) (k : ℕ) (st1 st2 : SearchState)
    (h1 : st1.vectorstoreLoaded = false) (h2 : st1.dbPathExists = false)
    (h3 : st2.vectorstoreLoaded = true) (h4 : st2.queryHits = some []) :
    (vectorSearchForward st1 q k).error =
        some ("Error searching documents: " ++ noIndexMessage) ∧
      (vectorSearchForward st1 q k).output.results_count = 0 ∧
      (vectorSearchForward st1 q k).output.error_details =
        some ("Error searching documents: " ++ noIndexMessage) ∧
      (vectorSearchForward st2 q k).error = Option.none ∧
      (vectorSearchForward st2 q k).output.results_count = 0 ∧
      (vectorSearchForward st2 q k).output.message =
        some ("No relevant documents found in the indexed collection") := by
  have hs1 : searchDocuments st1 q k = Except.error noIndexMessage := by
    rw [searchDocuments, if_pos (by rw [h1, h2]; rfl)]
  have hs2 : searchDocuments st2 q k = Except.ok [] := by
    rw [searchDocuments, if_neg (by rw [h3]; simp), if_neg (by rw [h3]; simp), h4]
    rfl
  refine ⟨?_, ?_, ?_, ?_, ?_, ?_⟩ <;>
    simp [vectorSearchForward, hs1, hs2]

/-- Witness for C7 at a concrete query and concrete store states. -/
theorem c7_search_no_index_and_zero_hits_witness :
    (vectorSearchForward ⟨false, false, false, Option.none⟩ ("query") 3).error =
        some ("Error searching documents: " ++ noIndexMessage) ∧
      (vectorSearchForward ⟨false, false, false, Option.none⟩ ("query") 3).output.results_count
        = 0 ∧
      (vectorSearchForward ⟨false, false, false, Option.none⟩ ("query") 3).output.error_details =
        some ("Error searching documents: " ++ noIndexMessage) ∧
      (vectorSearchForward ⟨true, true, true, some []⟩ ("query") 3).error = Option.none ∧
      (vectorSearchForward ⟨true, true, true, some []⟩ ("query") 3).output.results_count = 0 ∧
      (vectorSearchForward ⟨true, true, true, some []⟩ ("query") 3).output.message =
        some ("No relevant documents found in the indexed collection") :=
  c7_search_no_index_and_zero_hits ("query") 3 ⟨false, false, false, Option.none⟩
    ⟨true, true, true, some []⟩ rfl rfl rfl rfl

/-- The adaptive batch size for a single 75-token chunk is 500. -/
lemma calc_single_cSmall : calculateAdaptiveBatchSize [cSmall] 250000 = 500 := by
  rw [calculateAdaptiveBatchSize, if_neg (by decide)]
  rw [show (([cSmall] : List Chunk).take 50).map chunkTokens = List.replicate 1 75 from by
    simp [chunkTokens_cSmall]]
  exact adaptiveFrom_replicate75 1 (by norm_num)

/-- The planned batches for a single small chunk: one one-chunk batch. -/
lemma planned_single_cSmall : plannedBatches [cSmall] = [[cSmall]] := by
  rw [plannedBatches]
  rw [show sanitizeBatch [cSmall] = [cSmall] from rfl]
  rw [calc_single_cSmall]
  rfl

/-- Batch processing of the single small chunk under an all-accepting vector
store: one successful submission. -/
lemma c1_pcb : processChunksInBatchesModel batchOkAll [cSmall] = ⟨true, 1, [cSmall], 1⟩ := by
  rw [processChunksInBatchesModel, if_neg (by decide), planned_single_cSmall]
  rfl

/-- Evaluation of the first C1 indexing run on the empty metadata store. -/
lemma c1_run1_eval :
    indexDirectoryModel [] [demoFileC1] batchOkAll =
      ⟨("completed"), 1, 1, some [(("/docs/note.txt"), fromFilePath ("/docs/note.txt"))],
        [cSmall], 1⟩ := by
  have hfil : [demoFileC1].filter (needsReindex []) = [demoFileC1] := rfl
  simp only [indexDirectoryModel]
  rw [hfil]
  rw [if_neg (by decide : ¬(([demoFileC1] : List FileEntry).isEmpty = true))]
  rw [if_neg (by decide : ¬(([demoFileC1] : List FileEntry).isEmpty = true))]
  rw [show (([demoFileC1] : List FileEntry).map (fun f => f.chunks)).flatten = [cSmall] from rfl]
  rw [if_neg (by decide : ¬(([cSmall] : List Chunk).isEmpty = true))]
  rw [c1_pcb]
  rfl

/-- Evaluation of the second C1 indexing run, started from the metadata the
first run stored: the stored record's hash is the empty string while the
current hash is not, so the unchanged file is selected for processing again
and re-submitted. -/
lemma c1_run2_eval :
    indexDirectoryModel [(("/docs/note.txt"), fromFilePath ("/docs/note.txt"))]
        [demoFileC1] batchOkAll =
      ⟨("completed"), 1, 1, some [(("/docs/note.txt"), fromFilePath ("/docs/note.txt"))],
        [cSmall], 1⟩ := by
  have hfil : [demoFileC1].filter
      (needsReindex [(("/docs/note.txt"), fromFilePath ("/docs/note.txt"))]) =
      [demoFileC1] := rfl
  simp only [indexDirectoryModel]
  rw [hfil]
  rw [if_neg (by decide : ¬(([demoFileC1] : List FileEntry).isEmpty = true))]
  rw [if_neg (by decide : ¬(([demoFileC1] : List FileEntry).isEmpty = true))]
  rw [show (([demoFileC1] : List FileEntry).map (fun f => f.chunks)).flatten = [cSmall] from rfl]
  rw [if_neg (by decide : ¬(([cSmall] : List Chunk).isEmpty = true))]
  rw [c1_pcb]
  rfl

/-- C1 (code bug): `index_directory` stores, for every processed file, a
record freshly built by `DocumentMetadata.from_file_path`, whose `file_hash`
field is the empty string and is never filled in (line 774; line 134).  On
the next run the stored empty hash differs from the file's real (nonempty)
hash, so the unchanged file is selected again: the second run reports
`files_processed = 1` and performs an embedding submission, where the claim
requires `files_processed = 0`, zero embedding calls, and untouched records.
The claim describes the intended change detection (which the code's own
comments and messages document); the code's failure to store the computed
hash defeats it. -/
theorem c1_stored_empty_hash_forces_reprocessing :
    (indexDirectoryModel [] [demoFileC1] batchOkAll).status = ("completed") ∧
      (indexDirectoryModel [] [demoFileC1] batchOkAll).savedMetadata =
        some [(("/docs/note.txt"), fromFilePath ("/docs/note.txt"))] ∧
      (fromFilePath ("/docs/note.txt")).file_hash = "" ∧
      demoFileC1.hash ≠ "" ∧
      (indexDirectoryModel [(("/docs/note.txt"), fromFilePath ("/docs/note.txt"))]
        [demoFileC1] batchOkAll).files_processed = 1 ∧
      (indexDirectoryModel [(("/docs/note.txt"), fromFilePath ("/docs/note.txt"))]
        [demoFileC1] batchOkAll).submissions = 1 := by
  rw [c1_run1_eval, c1_run2_eval]
  refine ⟨rfl, rfl, rfl, by decide, rfl, rfl⟩

/-- Both demo files are selected on the first run (empty metadata store). -/
lemma c2_filter : demoFilesC2.filter (needsReindex []) = demoFilesC2 := rfl

/-- The chunk stream of the C2 run: file A's 500 chunks then file B's 2. -/
lemma c2_map :
    (demoFilesC2.map (fun f => f.chunks)).flatten =
      List.replicate 500 tinyChunkA ++ [tinyChunkB, tinyChunkB] := by
  simp [demoFilesC2, demoFileA, demoFileB]

/-- The C2 chunk stream is already sanitized. -/
lemma c2_sanitize :
    sanitizeBatch (List.replicate 500 tinyChunkA ++ [tinyChunkB, tinyChunkB]) =
      List.replicate 500 tinyChunkA ++ [tinyChunkB, tinyChunkB] := by
  rw [sanitizeBatch, List.map_append, List.map_replicate]
  rfl

/-- The C2 chunk stream is nonempty. -/
lemma c2_ne :
    ¬((List.replicate 500 tinyChunkA ++ [tinyChunkB, tinyChunkB]).isEmpty = true) := by
  simp

/-- The adaptive batch size for the C2 chunk stream is 500 (the sample sees
only file A's uniform 75-token chunks). -/
lemma c2_calc :
    calculateAdaptiveBatchSize
      (List.replicate 500 tinyChunkA ++ [tinyChunkB, tinyChunkB]) 250000 = 500 := by
  rw [calculateAdaptiveBatchSize, if_neg c2_ne]
  rw [show (List.replicate 500 tinyChunkA ++ [tinyChunkB, tinyChunkB]).take 50 =
      List.replicate 50 tinyChunkA from by
    rw [List.take_append_eq_append_take]
    simp [List.take_replicate]]
  rw [List.map_replicate, show chunkTokens tinyChunkA = 75 from by decide]
  exact adaptiveFrom_replicate75 50 (by norm_num)

/-- The count-based slices of the C2 chunk stream at batch size 500: file
A's 500 chunks, then file B's 2 chunks. -/
lemma c2_slices :
    batchSlices 500 (List.replicate 500 tinyChunkA ++ [tinyChunkB, tinyChunkB]) =
      [List.replicate 500 tinyChunkA, [tinyChunkB, tinyChunkB]] := by
  rw [batchSlices]
  rw [show (List.replicate 500 tinyChunkA ++ [tinyChunkB, tinyChunkB]).length = 502 from by simp]
  rw [show List.replicate 500 tinyChunkA ++ [tinyChunkB, tinyChunkB] =
      tinyChunkA :: (List.replicate 499 tinyChunkA ++ [tinyChunkB, tinyChunkB]) from by
    rw [show (500 : ℕ) = 499 + 1 from rfl, List.replicate_succ, List.cons_append]]
  rw [batchSlicesAux]
  rw [show max (500 : ℕ) 1 = 500 from by decide]
  rw [← List.cons_append, ← List.replicate_succ, show (499 + 1 : ℕ) = 500 from rfl]
  rw [List.take_append_eq_append_take, List.drop_append_eq_append_drop]
  simp only [List.take_replicate, List.drop_replicate, List.length_replicate]
  rw [show min (500 : ℕ) 500 = 500 from by decide]
  rw [show (500 - 500 : ℕ) = 0 from rfl]
  rw [show List.replicate (0 : ℕ) tinyChunkA = [] from rfl]
  rw [List.take_zero, List.drop_zero, List.nil_append, List.append_nil]
  rfl

/-- Batches made only of file A's chunks are accepted. -/
lemma c2_batchOk_A : batchOkC2 (List.replicate 500 tinyChunkA) = true := by
  rw [batchOkC2]
  rw [show (List.replicate 500 tinyChunkA).any isBChunk = false from by
    rw [List.any_eq_false]
    intro c hc
    rw [List.eq_of_mem_replicate hc]
    decide]
  rfl

/-- The batch holding file B's chunks is rejected. -/
lemma c2_batchOk_B : batchOkC2 [tinyChunkB, tinyChunkB] = false := by decide

/-- The C2 batch loop: the first batch (file A) commits, the second (file B)
permanently fails, so the run stops with 500 committed chunks out of two
submissions. -/
lemma c2_loop :
    batchLoop batchOkC2 [List.replicate 500 tinyChunkA, [tinyChunkB, tinyChunkB]] =
      ⟨false, 500, List.replicate 500 tinyChunkA, 2⟩ := by
  rw [batchLoop, if_pos c2_batchOk_A, batchLoop, if_neg (by rw [c2_batchOk_B]; simp)]
  simp

/-- Batch processing of the C2 chunk stream: partial failure after file A's
chunks are committed. -/
lemma c2_pcb :
    processChunksInBatchesModel batchOkC2
        (List.replicate 500 tinyChunkA ++ [tinyChunkB, tinyChunkB]) =
      ⟨false, 500, List.replicate 500 tinyChunkA, 2⟩ := by
  rw [processChunksInBatchesModel, if_neg c2_ne, plannedBatches, c2_sanitize, c2_calc,
    c2_slices, c2_loop]

/-- Full evaluation of the C2 indexing run: status "partial", and the saved
metadata contains records for both files even though none of file B's chunks
was committed. -/
lemma c2_run_eval :
    indexDirectoryModel [] demoFilesC2 batchOkC2 =
      ⟨("partial"), 2, 500,
        some [(("/docs/a.txt"), fromFilePath ("/docs/a.txt")),
          (("/docs/b.txt"), fromFilePath ("/docs/b.txt"))],
        List.replicate 500 tinyChunkA, 2⟩ := by
  simp only [indexDirectoryModel]
  rw [c2_filter]
  rw [if_neg (by decide : ¬(demoFilesC2.isEmpty = true))]
  rw [if_neg (by decide : ¬(demoFilesC2.isEmpty = true))]
  rw [c2_map]
  rw [if_neg c2_ne]
  rw [c2_pcb]
  rfl

/-- C2 counterexample: the C2 demo run ends in partial failure (file A's 500
chunks committed, file B's batch permanently failed), yet the saved Metadata
Store contains a record for file B — whose chunks were all in the failed
batch, as the committed chunks witness — contradicting the claim that a file
any of whose chunks belonged to the failed batch is not recorded. -/
theorem c2_partial_failure_saves_unindexed_file :
    (indexDirectoryModel [] demoFilesC2 batchOkC2).status = ("partial") ∧
      lookupRecord ((indexDirectoryModel [] demoFilesC2 batchOkC2).savedMetadata.getD [])
        ("/docs/b.txt") = some (fromFilePath ("/docs/b.txt")) ∧
      ((indexDirectoryModel [] demoFilesC2 batchOkC2).committedChunks.all
        (fun c => !(isBChunk c))) = true := by
  rw [c2_run_eval]
  refine ⟨rfl, rfl, ?_⟩
  rw [List.all_eq_true]
  intro c hc
  rw [List.eq_of_mem_replicate hc]
  decide

/-- C2 (amended): whenever an ingestion run ends in partial failure (some
chunks committed, then a batch permanently failed), `index_directory` saves
the *entire* in-memory metadata map — a record for every file loaded in the
run, including files none of whose chunks were committed; only a run with
zero committed chunks skips the save.  (Such files are still re-attempted on
later runs, but only because every stored hash is empty — see C1 — not
because of per-file commit tracking.) -/
theorem c2_partial_save_includes_all_loaded_files (metadata0 : List (String × FileRecord))
    (files : List FileEntry) (batchOk : List Chunk → Bool)
    (h : (indexDirectoryModel metadata0 files batchOk).status = ("partial")) :
    (indexDirectoryModel metadata0 files batchOk).savedMetadata =
      some (loadedMetadata metadata0 files) := by
  simp only [indexDirectoryModel] at h ⊢
  split_ifs at h ⊢ with h1 h2 h3 h4 h5
  all_goals first
  | rfl
  | simp at h

/-- Witness for C2 (amended) at the concrete C2 demo run. -/
theorem c2_partial_save_includes_all_loaded_files_witness :
    (indexDirectoryModel [] demoFilesC2 batchOkC2).savedMetadata =
      some (loadedMetadata [] demoFilesC2) :=
  c2_partial_save_includes_all_loaded_files [] demoFilesC2 batchOkC2
    (by rw [c2_run_eval])
